import Mathlib

/-
Verification of the numerical-methods calculator (bl00p1ng/calculadora-metodos-numericos).

Shallow embedding of the JavaScript source over the rationals: JS numbers are
IEEE doubles; every double is a rational, and none of the properties settled
here hinges on rounding at the visited inputs, so arithmetic is modelled
exactly in the rationals.  Fallible JS code (throw) is modelled with Except,
the mutable instance fields this.result and this.iterations with an explicit
state record, and logger warnings with an explicit list of messages.
-/

namespace CalcMN

/-- Errors thrown by the JS code: a plain Error with its message, or the
strict-mode TypeError raised by an assignment to a const binding. -/
inductive JsErr
| jsError (msg : String)
| typeError (msg : String)
deriving DecidableEq

/-- Interpretations of the six whitelisted math function names.  The JS code
maps them to Math.sin and friends (doubles); the embedding keeps them as an
abstract parameter over the rationals. -/
structure MathFns where
  sin : ℚ → ℚ
  cos : ℚ → ℚ
  tan : ℚ → ℚ
  log : ℚ → ℚ
  sqrt : ℚ → ℚ
  exp : ℚ → ℚ

/-- Replace every non-overlapping occurrence of pat by repl, scanning left to
right, exactly as the literal global replaces in NumericalMethod.evaluateFunction
(src/unnamed/part_004 lines 58 and 64-69) behave. -/
def replaceAllAux (pat repl : List Char) : Nat → List Char → List Char
| _, [] => []
| 0, l => l
| fuel + 1, c :: rest =>
  if pat.isPrefixOf (c :: rest) then
    repl ++ replaceAllAux pat repl fuel ((c :: rest).drop pat.length)
  else
    c :: replaceAllAux pat repl fuel rest

/-- String-level wrapper for replaceAllAux. -/
def replaceAll (s pat repl : String) : String :=
  String.mk (replaceAllAux pat.toList repl.toList (s.toList.length + 1) s.toList)

/-- Least k with d dividing 10 ^ k, searched up to 60, so that a rational with
a terminating decimal expansion can be printed the way JS prints the
corresponding double. -/
def pow10Exponent (d : Nat) : Option Nat :=
  (List.range 61).find? (fun k => 10 ^ k % d == 0)

/-- Left-pad a digit string with zeros to width k. -/
def padZeros (s : String) (k : Nat) : String :=
  String.mk (List.replicate (k - s.length) '0') ++ s

/-- Rendering of a JS number into the template literal of
NumericalMethod.evaluateFunction line 58.  Faithful on rationals with a
terminating decimal expansion whose shortest round-trip form is that expansion,
which covers every number the verified runs substitute (integers and small
dyadics); other rationals get a fallback never exercised by the theorems. -/
def jsNumberToStringNonneg (q : ℚ) : String :=
  if q.den = 1 then toString q.num.natAbs
  else
    match pow10Exponent q.den with
    | none => toString q.num.natAbs ++ "/" ++ toString q.den
    | some k =>
      let total : Nat := q.num.natAbs * (10 ^ k / q.den)
      toString (total / 10 ^ k) ++ "." ++ padZeros (toString (total % 10 ^ k)) k

/-- Sign handling of the JS rendering: negative numbers print a leading minus
followed by the rendering of the absolute value. -/
def jsNumberToString (q : ℚ) : String :=
  if q < 0 then "-" ++ jsNumberToStringNonneg (-q) else jsNumberToStringNonneg q

/-- Scanner for the global regex replace of line 61 of
NumericalMethod.evaluateFunction: each match of an opening parenthesis, a
nonempty run of characters other than the closing parenthesis, the closing
parenthesis, a caret and a nonempty digit run is rewritten to a Math.pow call;
on a failed match the scan advances one character, as the regex engine does. -/
def powRewriteAux : Nat → List Char → List Char
| _, [] => []
| 0, l => l
| fuel + 1, c :: rest =>
  if c = '(' then
    let inner := rest.takeWhile (fun ch => ch ≠ ')')
    let after := rest.drop inner.length
    match inner, after with
    | _ :: _, ')' :: '^' :: tail =>
      let digits := tail.takeWhile Char.isDigit
      match digits with
      | [] => c :: powRewriteAux fuel rest
      | _ :: _ =>
        "Math.pow(".toList ++ inner ++ [','] ++ digits ++ [')'] ++
          powRewriteAux fuel (tail.drop digits.length)
    | _, _ => c :: powRewriteAux fuel rest
  else
    c :: powRewriteAux fuel rest

/-- String-level wrapper for powRewriteAux. -/
def powRewrite (s : String) : String :=
  String.mk (powRewriteAux (s.toList.length + 1) s.toList)

/-- Transcription of lines 58-69 of NumericalMethod.evaluateFunction: substitute
the bound value for every occurrence of the character x, rewrite base^digits
into Math.pow, then map the whitelisted names onto the Math namespace. -/
def rewriteExpression (func : String) (x : ℚ) : String :=
  let e1 := replaceAll func "x" ("(" ++ jsNumberToString x ++ ")")
  let e2 := powRewrite e1
  let e3 := replaceAll e2 "sin" "Math.sin"
  let e4 := replaceAll e3 "cos" "Math.cos"
  let e5 := replaceAll e4 "tan" "Math.tan"
  let e6 := replaceAll e5 "log" "Math.log"
  let e7 := replaceAll e6 "sqrt" "Math.sqrt"
  replaceAll e7 "exp" "Math.exp"

/-- Source text handed to the Function constructor on line 71 of
NumericalMethod.evaluateFunction; the code executes it dynamically with no
prior validation of its content. -/
def evaluateFunctionSource (func : String) (x : ℚ) : String :=
  "\"use strict\"; return (" ++ rewriteExpression func x ++ ")"

/-- Tokens of the expression sublanguage the rewritten strings reach: number
literals, dotted identifiers such as Math.pow, parentheses, a comma and the
four arithmetic operators.  Any other character tokenizes to bad and makes the
host evaluation fail, modelling the SyntaxError or ReferenceError the Function
constructor raises on text outside this fragment. -/
inductive JsTok
| num (q : ℚ)
| ident (s : String)
| lparen
| rparen
| comma
| plus
| minus
| star
| slash
| bad
deriving DecidableEq

/-- Character class of identifier tokens: letters and the namespace dot. -/
def isIdentChar (c : Char) : Bool := c.isAlpha || c = '.'

/-- Numeric value of a digit run. -/
def digitsToNat (l : List Char) : Nat :=
  l.foldl (fun n c => 10 * n + (c.toNat - '0'.toNat)) 0

/-- Tokenizer for the arithmetic fragment handed to the Function constructor. -/
def jsTokenizeAux : Nat → List Char → List JsTok
| _, [] => []
| 0, _ => [JsTok.bad]
| fuel + 1, c :: rest =>
  if c = ' ' then jsTokenizeAux fuel rest
  else if c = '(' then JsTok.lparen :: jsTokenizeAux fuel rest
  else if c = ')' then JsTok.rparen :: jsTokenizeAux fuel rest
  else if c = ',' then JsTok.comma :: jsTokenizeAux fuel rest
  else if c = '+' then JsTok.plus :: jsTokenizeAux fuel rest
  else if c = '-' then JsTok.minus :: jsTokenizeAux fuel rest
  else if c = '*' then JsTok.star :: jsTokenizeAux fuel rest
  else if c = '/' then JsTok.slash :: jsTokenizeAux fuel rest
  else if c.isDigit then
    let intDigits := (c :: rest).takeWhile Char.isDigit
    let afterInt := (c :: rest).drop intDigits.length
    match afterInt with
    | '.' :: d :: tail =>
      if d.isDigit then
        let fracDigits := (d :: tail).takeWhile Char.isDigit
        let afterFrac := (d :: tail).drop fracDigits.length
        JsTok.num ((digitsToNat intDigits : ℚ) +
            (digitsToNat fracDigits : ℚ) / (10 ^ fracDigits.length : ℚ)) ::
          jsTokenizeAux fuel afterFrac
      else JsTok.num (digitsToNat intDigits : ℚ) :: jsTokenizeAux fuel afterInt
    | _ => JsTok.num (digitsToNat intDigits : ℚ) :: jsTokenizeAux fuel afterInt
  else if c.isAlpha then
    let name := (c :: rest).takeWhile isIdentChar
    JsTok.ident (String.mk name) :: jsTokenizeAux fuel ((c :: rest).drop name.length)
  else
    [JsTok.bad]

/-- String-level tokenizer wrapper. -/
def jsTokenize (s : String) : List JsTok :=
  jsTokenizeAux (s.toList.length + 1) s.toList

/-- Math.pow semantics on the inputs the rewrite produces: the exponent is
always a digit run, hence an integer; a non-integer exponent is out of the
modelled fragment. -/
def jsPow (a b : ℚ) : Option ℚ :=
  if b.den = 1 then some (a ^ b.num) else none

/-- Interpretation of the unary Math calls the rewrite can produce. -/
def unaryFn (fns : MathFns) (name : String) : Option (ℚ → ℚ) :=
  if name = "Math.sin" then some fns.sin
  else if name = "Math.cos" then some fns.cos
  else if name = "Math.tan" then some fns.tan
  else if name = "Math.log" then some fns.log
  else if name = "Math.sqrt" then some fns.sqrt
  else if name = "Math.exp" then some fns.exp
  else none

/-- Parser state: lvl n is about to parse a production of precedence level n
(0 additive, 1 multiplicative, 2 unary minus, 3 atom); addR and mulR hold the
left-associative accumulator while scanning an operator chain. -/
inductive PMode
| lvl (n : Nat)
| addR (acc : ℚ)
| mulR (acc : ℚ)

/-- Recursive-descent evaluator for the tokenized fragment with JS operator
precedence.  Division follows the rational-field convention; the verified runs
never divide by zero. -/
def parseRun (fns : MathFns) : Nat → PMode → List JsTok → Option (ℚ × List JsTok)
| 0, _, _ => none
| fuel + 1, PMode.lvl 0, ts =>
  match parseRun fns fuel (PMode.lvl 1) ts with
  | none => none
  | some (v, rest) => parseRun fns fuel (PMode.addR v) rest
| fuel + 1, PMode.lvl 1, ts =>
  match parseRun fns fuel (PMode.lvl 2) ts with
  | none => none
  | some (v, rest) => parseRun fns fuel (PMode.mulR v) rest
| fuel + 1, PMode.lvl 2, ts =>
  match ts with
  | JsTok.minus :: rest =>
    match parseRun fns fuel (PMode.lvl 2) rest with
    | none => none
    | some (v, rest2) => some (-v, rest2)
  | _ => parseRun fns fuel (PMode.lvl 3) ts
| fuel + 1, PMode.lvl (_ + 3), ts =>
  match ts with
  | JsTok.num q :: rest => some (q, rest)
  | JsTok.lparen :: rest =>
    match parseRun fns fuel (PMode.lvl 0) rest with
    | some (v, JsTok.rparen :: rest2) => some (v, rest2)
    | _ => none
  | JsTok.ident name :: JsTok.lparen :: rest =>
    if name = "Math.pow" then
      match parseRun fns fuel (PMode.lvl 0) rest with
      | some (a, JsTok.comma :: rest2) =>
        match parseRun fns fuel (PMode.lvl 0) rest2 with
        | some (b, JsTok.rparen :: rest3) =>
          match jsPow a b with
          | some v => some (v, rest3)
          | none => none
        | _ => none
      | _ => none
    else
      match unaryFn fns name with
      | none => none
      | some g =>
        match parseRun fns fuel (PMode.lvl 0) rest with
        | some (a, JsTok.rparen :: rest2) => some (g a, rest2)
        | _ => none
  | _ => none
| fuel + 1, PMode.addR acc, JsTok.plus :: rest =>
  match parseRun fns fuel (PMode.lvl 1) rest with
  | none => none
  | some (v, rest2) => parseRun fns fuel (PMode.addR (acc + v)) rest2
| fuel + 1, PMode.addR acc, JsTok.minus :: rest =>
  match parseRun fns fuel (PMode.lvl 1) rest with
  | none => none
  | some (v, rest2) => parseRun fns fuel (PMode.addR (acc - v)) rest2
| _ + 1, PMode.addR acc, ts => some (acc, ts)
| fuel + 1, PMode.mulR acc, JsTok.star :: rest =>
  match parseRun fns fuel (PMode.lvl 2) rest with
  | none => none
  | some (v, rest2) => parseRun fns fuel (PMode.mulR (acc * v)) rest2
| fuel + 1, PMode.mulR acc, JsTok.slash :: rest =>
  match parseRun fns fuel (PMode.lvl 2) rest with
  | none => none
  | some (v, rest2) => parseRun fns fuel (PMode.mulR (acc / v)) rest2
| _ + 1, PMode.mulR acc, ts => some (acc, ts)

/-- Host evaluation of the rewritten expression text: tokenize, parse a full
additive expression and require all tokens consumed.  none models a thrown
SyntaxError, ReferenceError or TypeError inside the Function constructor
call. -/
def jsHostEval (fns : MathFns) (s : String) : Option ℚ :=
  let ts := jsTokenize s
  match parseRun fns (8 * (ts.length + 4)) (PMode.lvl 0) ts with
  | some (v, []) => some v
  | _ => none

/-- Transcription of NumericalMethod.evaluateFunction (src/unnamed/part_004
lines 54-76): rewrite the expression, execute it, and turn any host failure
into the thrown Error with message Función inválida. -/
def evaluateFunction (fns : MathFns) (func : String) (x : ℚ) : Except JsErr ℚ :=
  match jsHostEval fns (rewriteExpression func x) with
  | some v => Except.ok v
  | none => Except.error (JsErr.jsError "Función inválida")

/-- Function names the specification whitelists, together with the variable. -/
def allowedWords : List String := ["sin", "cos", "tan", "log", "sqrt", "exp", "x"]

/-- Maximal alphabetic runs of a string, the word tokens of the
specification-level token model. -/
def specAlphaRuns : Nat → List Char → List String
| _, [] => []
| 0, _ => []
| fuel + 1, c :: rest =>
  if c.isAlpha then
    let run := (c :: rest).takeWhile Char.isAlpha
    String.mk run :: specAlphaRuns fuel ((c :: rest).drop run.length)
  else specAlphaRuns fuel rest

/-- Characters of number, operator and grouping tokens in the specification
token model. -/
def specSymbolChars : List Char := ['+', '-', '*', '/', '^', '(', ')', '.', ' ']

/-- Modelled from the spec: the compilation invariant of section 3, a token
sequence is acceptable only when every character belongs to a number, an
operator or a letter, and every word is a whitelisted function name or the
variable x.  The source has no counterpart of this check; the definition
exists to state claim C1 against the code. -/
def specWhitelistedTokens (s : String) : Bool :=
  s.toList.all (fun c => c.isAlpha || c.isDigit || specSymbolChars.contains c) &&
    (specAlphaRuns (s.toList.length + 1) s.toList).all (fun w => allowedWords.contains w)

/-- Mutable result and iteration-trace fields of a NumericalMethod instance
(src/unnamed/part_004 lines 14-15). -/
structure MethodState (α ι : Type) where
  result : Option α
  iterations : List ι

/-- State of a freshly constructed method instance. -/
def freshState {α ι : Type} : MethodState α ι := ⟨none, []⟩

/-- JS truthiness test done by the if (!this.result) blocks: null and 0 are
falsy, every other number is truthy. -/
def jsFalsyResult (r : Option ℚ) : Bool :=
  match r with
  | none => true
  | some v => v == 0

/-- Parameters of BisectionMethod.calculate.  The a, b, tolerance and
maxIterations fields are numbers already, so the isNaN and parseFloat steps of
the source are identities here; maxIterations is kept integral, which is how
every caller supplies it. -/
structure BisectionParams where
  function : String
  a : ℚ
  b : ℚ
  tolerance : ℚ
  maxIterations : ℤ

/-- Transcription of BisectionMethod.validateParams
(src/js/methods/BisectionMethod.js lines 21-45), checks in source order. -/
def bisectionValidateParams (p : BisectionParams) : Except JsErr Unit :=
  if p.function.trim = "" then
    Except.error (JsErr.jsError "La función no puede estar vacía")
  else if p.b ≤ p.a then
    Except.error (JsErr.jsError "El límite inferior debe ser menor que el superior")
  else if p.tolerance ≤ 0 then
    Except.error (JsErr.jsError "La tolerancia debe ser mayor que cero")
  else if p.maxIterations ≤ 0 then
    Except.error (JsErr.jsError "El número máximo de iteraciones debe ser mayor que cero")
  else Except.ok ()

/-- Iteration record pushed by the bisection loop (lines 84-91). -/
structure BisectionRec where
  iteration : Nat
  a : ℚ
  b : ℚ
  c : ℚ
  fc : ℚ
  error : ℚ
deriving DecidableEq

/-- Exit data of the bisection while loop: trace, result slot, final bracket
and a thrown error if the loop aborted. -/
structure BisectionLoopOut where
  iterations : List BisectionRec
  result : Option ℚ
  aEnd : ℚ
  bEnd : ℚ
  thrown : Option JsErr

/-- Transcription of the while loop of BisectionMethod.calculate (lines
79-112).  The fa and fb bindings on lines 67-68 are const declarations inside
strict-mode module code, so the reassignments fb = fc and fa = fc on lines 105
and 108 both throw a TypeError: whichever narrowing branch runs aborts the
call before a second iteration can start. -/
def bisectionLoop (f : ℚ → Except JsErr ℚ) (tol fa : ℚ) :
    Nat → Nat → ℚ → ℚ → List BisectionRec → BisectionLoopOut
| 0, _, aV, bV, its => ⟨its, none, aV, bV, none⟩
| _ + 1, iter, aV, bV, its =>
  let c := (aV + bV) / 2
  match f c with
  | Except.error e => ⟨its, none, aV, bV, some e⟩
  | Except.ok fc =>
    let err := |bV - aV| / 2
    let its2 := its ++ [⟨iter + 1, aV, bV, c, fc, err⟩]
    if |fc| < tol ∨ err < tol then ⟨its2, some c, aV, bV, none⟩
    else if fa * fc < 0 then
      ⟨its2, none, aV, c, some (JsErr.typeError "Assignment to constant variable.")⟩
    else
      ⟨its2, none, c, bV, some (JsErr.typeError "Assignment to constant variable.")⟩

/-- Transcription of BisectionMethod.calculate (lines 56-118): validate,
evaluate f at the endpoints, check the sign condition, reset the instance
state, run the loop, and on a loop exit without stored result fall back to the
current midpoint.  The function argument f stands for
this.evaluateFunction applied to params.function, see evaluateFunction. -/
def bisectionCalculate (f : ℚ → Except JsErr ℚ) (p : BisectionParams)
    (st : MethodState ℚ BisectionRec) : MethodState ℚ BisectionRec × Option JsErr :=
  match bisectionValidateParams p with
  | Except.error e => (st, some e)
  | Except.ok _ =>
  match f p.a with
  | Except.error e => (st, some e)
  | Except.ok fa =>
  match f p.b with
  | Except.error e => (st, some e)
  | Except.ok fb =>
  if fa * fb > 0 then (st, some (JsErr.jsError "f(a) y f(b) deben tener signos opuestos"))
  else
    let out := bisectionLoop f p.tolerance fa p.maxIterations.toNat 0 p.a p.b []
    match out.thrown with
    | some e => ({ result := none, iterations := out.iterations }, some e)
    | none =>
      if jsFalsyResult out.result then
        ({ result := some ((out.aEnd + out.bEnd) / 2), iterations := out.iterations }, none)
      else
        ({ result := out.result, iterations := out.iterations }, none)

/-- Parameters of NewtonMethod.calculate. -/
structure NewtonParams where
  function : String
  x0 : ℚ
  tolerance : ℚ
  maxIterations : ℤ

/-- Transcription of NewtonMethod.validateParams
(src/js/methods/NewtonMethod.js lines 21-41); the isNaN check is an identity
over the rationals. -/
def newtonValidateParams (p : NewtonParams) : Except JsErr Unit :=
  if p.function.trim = "" then
    Except.error (JsErr.jsError "La función f(x) no puede estar vacía")
  else if p.tolerance ≤ 0 then
    Except.error (JsErr.jsError "La tolerancia debe ser mayor que cero")
  else if p.maxIterations ≤ 0 then
    Except.error (JsErr.jsError "El número máximo de iteraciones debe ser mayor que cero")
  else Except.ok ()

/-- Transcription of NewtonMethod.calculateDerivative (lines 49-62): central
difference with fixed step 1/10000; an evaluation failure is caught and
rethrown as the wrapped derivative error. -/
def calculateDerivative (f : ℚ → Except JsErr ℚ) (x : ℚ) : Except JsErr ℚ :=
  let h : ℚ := 1 / 10000
  match f (x + h) with
  | Except.error _ => Except.error (JsErr.jsError "Error al calcular la derivada")
  | Except.ok f1 =>
    match f (x - h) with
    | Except.error _ => Except.error (JsErr.jsError "Error al calcular la derivada")
    | Except.ok f2 => Except.ok ((f1 - f2) / (2 * h))

/-- Iteration record pushed by the Newton loop (lines 106-113). -/
structure NewtonRec where
  iteration : Nat
  x : ℚ
  fx : ℚ
  fpx : ℚ
  xNext : ℚ
  error : ℚ
deriving DecidableEq

/-- Exit data of a root-finding while loop: trace, result slot, the final
value of the local x, and a thrown error if the loop aborted. -/
structure RootLoopOut (ι : Type) where
  iterations : List ι
  result : Option ℚ
  xEnd : ℚ
  thrown : Option JsErr

/-- Transcription of the while loop of NewtonMethod.calculate (lines 86-133).
The divergence test of line 126 runs after the convergence test of line 118;
its isNaN disjunct concerns a value the rational embedding cannot produce. -/
def newtonLoop (f : ℚ → Except JsErr ℚ) (tol : ℚ) :
    Nat → Nat → ℚ → List NewtonRec → RootLoopOut NewtonRec
| 0, _, x, its => ⟨its, none, x, none⟩
| fuel + 1, iter, x, its =>
  match f x with
  | Except.error e => ⟨its, none, x, some e⟩
  | Except.ok fx =>
  match calculateDerivative f x with
  | Except.error e => ⟨its, none, x, some e⟩
  | Except.ok fpx =>
  if |fpx| < 1 / 10 ^ 10 then
    ⟨its, none, x, some (JsErr.jsError "La derivada es muy pequeña, el método puede no converger")⟩
  else
    let xNext := x - fx / fpx
    let err := |xNext - x|
    let its2 := its ++ [⟨iter + 1, x, fx, fpx, xNext, err⟩]
    if err < tol ∨ |fx| < tol then ⟨its2, some xNext, x, none⟩
    else if |xNext| > 10 ^ 10 then
      ⟨its2, none, x, some (JsErr.jsError "El método diverge con el valor inicial dado")⟩
    else newtonLoop f tol fuel (iter + 1) xNext its2

/-- Transcription of NewtonMethod.calculate (lines 72-139).  The function
argument f stands for this.evaluateFunction applied to params.function. -/
def newtonCalculate (f : ℚ → Except JsErr ℚ) (p : NewtonParams)
    (st : MethodState ℚ NewtonRec) : MethodState ℚ NewtonRec × Option JsErr :=
  match newtonValidateParams p with
  | Except.error e => (st, some e)
  | Except.ok _ =>
    let out := newtonLoop f p.tolerance p.maxIterations.toNat 0 p.x0 []
    match out.thrown with
    | some e => ({ result := none, iterations := out.iterations }, some e)
    | none =>
      if jsFalsyResult out.result then
        ({ result := some out.xEnd, iterations := out.iterations }, none)
      else
        ({ result := out.result, iterations := out.iterations }, none)

/-- Parameters of FixedPointMethod.calculate. -/
structure FixedPointParams where
  function : String
  x0 : ℚ
  tolerance : ℚ
  maxIterations : ℤ

/-- Transcription of FixedPointMethod.validateParams
(src/js/methods/FixedPointMethod.js lines 21-41). -/
def fixedPointValidateParams (p : FixedPointParams) : Except JsErr Unit :=
  if p.function.trim = "" then
    Except.error (JsErr.jsError "La función g(x) no puede estar vacía")
  else if p.tolerance ≤ 0 then
    Except.error (JsErr.jsError "La tolerancia debe ser mayor que cero")
  else if p.maxIterations ≤ 0 then
    Except.error (JsErr.jsError "El número máximo de iteraciones debe ser mayor que cero")
  else Except.ok ()

/-- Iteration record pushed by the fixed-point loop (lines 77-82). -/
structure FixedPointRec where
  iteration : Nat
  x : ℚ
  gx : ℚ
  error : ℚ
deriving DecidableEq

/-- Transcription of the while loop of FixedPointMethod.calculate (lines
65-101).  The divergence test of line 94 runs after the convergence test of
line 86 and checks only the magnitude, with no isNaN disjunct. -/
def fixedPointLoop (g : ℚ → Except JsErr ℚ) (tol : ℚ) :
    Nat → Nat → ℚ → List FixedPointRec → RootLoopOut FixedPointRec
| 0, _, x, its => ⟨its, none, x, none⟩
| fuel + 1, iter, x, its =>
  match g x with
  | Except.error e => ⟨its, none, x, some e⟩
  | Except.ok xNext =>
    let err := |xNext - x|
    let its2 := its ++ [⟨iter + 1, x, xNext, err⟩]
    if err < tol then ⟨its2, some xNext, x, none⟩
    else if |xNext| > 10 ^ 10 then
      ⟨its2, none, x, some (JsErr.jsError "El método diverge con el valor inicial dado")⟩
    else fixedPointLoop g tol fuel (iter + 1) xNext its2

/-- Transcription of FixedPointMethod.calculate (lines 51-107).  The function
argument g stands for this.evaluateFunction applied to params.function. -/
def fixedPointCalculate (g : ℚ → Except JsErr ℚ) (p : FixedPointParams)
    (st : MethodState ℚ FixedPointRec) : MethodState ℚ FixedPointRec × Option JsErr :=
  match fixedPointValidateParams p with
  | Except.error e => (st, some e)
  | Except.ok _ =>
    let out := fixedPointLoop g p.tolerance p.maxIterations.toNat 0 p.x0 []
    match out.thrown with
    | some e => ({ result := none, iterations := out.iterations }, some e)
    | none =>
      if jsFalsyResult out.result then
        ({ result := some out.xEnd, iterations := out.iterations }, none)
      else
        ({ result := out.result, iterations := out.iterations }, none)

/-- Parameters shared by GaussSeidelMethod.calculate and
GaussJacobiMethod.calculate (both classes live in
src/js/methods/GaussSeidelMethod.js). -/
structure LinearParams where
  matrix : List (List ℚ)
  vector : List ℚ
  initialGuess : List ℚ
  tolerance : ℚ
  maxIterations : ℤ

/-- JS array read matrix[i][j]; validated runs never index out of range. -/
def mEntry (m : List (List ℚ)) (i j : Nat) : ℚ := (m.getD i []).getD j 0

/-- JS array read v[i]. -/
def vEntry (v : List ℚ) (i : Nat) : ℚ := v.getD i 0

/-- Off-diagonal absolute row sum of the dominance check, the inner loop of
GaussSeidelMethod.js lines 56-61. -/
def offDiagAbsSum (matrix : List (List ℚ)) (i : Nat) : ℚ :=
  (List.range matrix.length).foldl
    (fun s j => if i ≠ j then s + |mEntry matrix i j| else s) 0

/-- Body of the dominance warning loop for one row (lines 62-65). -/
def dominanceStep (matrix : List (List ℚ)) (ws : List String) (i : Nat) : List String :=
  if |mEntry matrix i i| ≤ offDiagAbsSum matrix i then
    ws ++ ["Fila " ++ toString (i + 1) ++ ": La matriz no es estrictamente diagonal dominante",
           "El método podría no converger"]
  else ws

/-- Transcription of the diagonal-dominance warning loop (GaussSeidelMethod.js
lines 55-66 and its verbatim copy in GaussJacobiMethod): every row whose
diagonal magnitude does not exceed the off-diagonal absolute sum logs two
warnings; none of this throws. -/
def dominanceWarnings (matrix : List (List ℚ)) : List String :=
  (List.range matrix.length).foldl (dominanceStep matrix) []

/-- Index of the first diagonal entry of magnitude below 1e-10, the fatal
near-zero-pivot test of lines 69-73. -/
def firstSmallDiag (matrix : List (List ℚ)) : Option Nat :=
  (List.range matrix.length).find? (fun i => |mEntry matrix i i| < 1 / 10 ^ 10)

/-- Transcription of GaussSeidelMethod.validateParams (lines 21-84) and of the
identical GaussJacobiMethod.validateParams: square matrix, matching vector
lengths, dominance warnings, fatal near-zero diagonal, positive tolerance and
iteration budget, in source order.  Returns the warnings logged before the
outcome.  The Array.isArray checks are identities over the typed record. -/
def linearValidateParams (p : LinearParams) : List String × Except JsErr Unit :=
  let n := p.matrix.length
  if ¬ p.matrix.all (fun row => row.length = n) then
    ([], Except.error (JsErr.jsError "La matriz debe ser cuadrada"))
  else if p.vector.length ≠ n then
    ([], Except.error
      (JsErr.jsError "El vector de términos independientes debe tener el mismo tamaño que la matriz"))
  else if p.initialGuess.length ≠ n then
    ([], Except.error (JsErr.jsError "El vector inicial debe tener el mismo tamaño que la matriz"))
  else
    let ws := dominanceWarnings p.matrix
    match firstSmallDiag p.matrix with
    | some i =>
      (ws, Except.error (JsErr.jsError
        ("Elemento diagonal (" ++ toString (i + 1) ++ "," ++ toString (i + 1) ++ ") es cero o muy pequeño")))
    | none =>
      if p.tolerance ≤ 0 then
        (ws, Except.error (JsErr.jsError "La tolerancia debe ser mayor que cero"))
      else if p.maxIterations ≤ 0 then
        (ws, Except.error (JsErr.jsError "El número máximo de iteraciones debe ser mayor que cero"))
      else (ws, Except.ok ())

/-- One Jacobi sweep, the inner for of GaussJacobiMethod.calculate lines
303-315: every entry is solved from the incoming iterate x only, and the
returned fresh vector is swapped in afterwards. -/
def jacobiSweep (matrix : List (List ℚ)) (vector x : List ℚ) : List ℚ :=
  (List.range matrix.length).map (fun i =>
    let sum := (List.range matrix.length).foldl
      (fun s j => if i ≠ j then s + mEntry matrix i j * vEntry x j else s) 0
    (vEntry vector i - sum) / mEntry matrix i i)

/-- Off-diagonal row sum of the Gauss-Seidel update for row i, lines 117-127:
one loop over j below i and one over j above i, both reading the current
array xs, whose entries below i have already been overwritten in this sweep. -/
def seidelRowSum (matrix : List (List ℚ)) (xs : List ℚ) (i n : Nat) : ℚ :=
  let s1 := (List.range i).foldl (fun s j => s + mEntry matrix i j * vEntry xs j) 0
  (List.range' (i + 1) (n - (i + 1))).foldl
    (fun s j => s + mEntry matrix i j * vEntry xs j) s1

/-- In-place update of entry i inside a Gauss-Seidel sweep (line 130). -/
def seidelUpdate (matrix : List (List ℚ)) (vector : List ℚ) (n : Nat)
    (xs : List ℚ) (i : Nat) : List ℚ :=
  xs.set i ((vEntry vector i - seidelRowSum matrix xs i n) / mEntry matrix i i)

/-- One Gauss-Seidel sweep, the inner for of GaussSeidelMethod.calculate lines
116-131: x[i] is overwritten in place as soon as it is computed. -/
def seidelSweep (matrix : List (List ℚ)) (vector x : List ℚ) : List ℚ :=
  (List.range matrix.length).foldl (seidelUpdate matrix vector matrix.length) x

/-- Max-norm error loop of lines 134-137 and 318-321. -/
def maxAbsDiff (a b : List ℚ) (n : Nat) : ℚ :=
  (List.range n).foldl (fun e i => max e |vEntry a i - vEntry b i|) 0

/-- Square of the Euclidean residual of lines 140-148 and 323-332; the source
stores Math.sqrt of this value, which is irrational in general and is only
displayed, never compared. -/
def residualSq (matrix : List (List ℚ)) (vector xs : List ℚ) : ℚ :=
  (List.range matrix.length).foldl
    (fun r i =>
      let s := (List.range matrix.length).foldl
        (fun acc j => acc + mEntry matrix i j * vEntry xs j) 0
      r + (s - vEntry vector i) ^ 2)
    0

/-- Squared Euclidean norm of the sweep difference, lines 151-156. -/
def deltaSq (a b : List ℚ) (n : Nat) : ℚ :=
  (List.range n).foldl (fun s i => s + (vEntry a i - vEntry b i) ^ 2) 0

/-- Squared Euclidean norm of a vector, lines 151-156. -/
def normSq (a : List ℚ) (n : Nat) : ℚ :=
  (List.range n).foldl (fun s i => s + vEntry a i ^ 2) 0

/-- Iteration record pushed by the Gauss-Seidel loop (lines 159-166).  The
source stores relativeError as sqrt of relDeltaSq over sqrt of xNormSq and
residual as sqrt of residualSq; the squares carry the same information inside
the rationals. -/
structure SeidelRec where
  iteration : Nat
  xOld : List ℚ
  x : List ℚ
  error : ℚ
  relDeltaSq : ℚ
  xNormSq : ℚ
  residualSq : ℚ
deriving DecidableEq

/-- Convergence test of line 173.  The relative-error comparison
sqrt(dSq)/sqrt(nSq) < tol is equivalent over nonnegative reals to
dSq < tol^2 * nSq when nSq > 0; when nSq = 0 the JS quotient is NaN or
Infinity and the comparison is false either way. -/
def seidelConverged (tol err dSq nSq : ℚ) : Bool :=
  err < tol ∨ (0 < nSq ∧ dSq < tol ^ 2 * nSq)

/-- Exit data of a linear-solver while loop. -/
structure LinLoopOut (ι : Type) where
  iterations : List ι
  result : Option (List ℚ)
  xEnd : List ℚ

/-- Transcription of the while loop of GaussSeidelMethod.calculate (lines
111-181). -/
def seidelLoop (A : List (List ℚ)) (b : List ℚ) (tol : ℚ) :
    Nat → Nat → List ℚ → List SeidelRec → LinLoopOut SeidelRec
| 0, _, x, its => ⟨its, none, x⟩
| fuel + 1, iter, x, its =>
  let n := A.length
  let x2 := seidelSweep A b x
  let err := maxAbsDiff x2 x n
  let dSq := deltaSq x2 x n
  let nSq := normSq x2 n
  let its2 := its ++ [⟨iter + 1, x, x2, err, dSq, nSq, residualSq A b x2⟩]
  if seidelConverged tol err dSq nSq then ⟨its2, some x2, x2⟩
  else seidelLoop A b tol fuel (iter + 1) x2 its2

/-- Transcription of GaussSeidelMethod.calculate (lines 95-188).  On budget
exhaustion the best iterate is stored with a non-fatal warning; the second
warning line rendering the vector with toFixed is presentation only and is
not modelled. -/
def gaussSeidelCalculate (p : LinearParams) (st : MethodState (List ℚ) SeidelRec) :
    MethodState (List ℚ) SeidelRec × List String × Option JsErr :=
  let vw := linearValidateParams p
  match vw.2 with
  | Except.error e => (st, vw.1, some e)
  | Except.ok _ =>
    let out := seidelLoop p.matrix p.vector p.tolerance p.maxIterations.toNat 0 p.initialGuess []
    match out.result with
    | some r => ({ result := some r, iterations := out.iterations }, vw.1, none)
    | none =>
      ({ result := some out.xEnd, iterations := out.iterations },
        vw.1 ++ ["Máximo de iteraciones alcanzado sin convergencia"], none)

/-- Iteration record pushed by the Jacobi loop (lines 334-340), with
residualSq in place of the displayed square root. -/
structure JacobiRec where
  iteration : Nat
  x : List ℚ
  xNew : List ℚ
  error : ℚ
  residualSq : ℚ
deriving DecidableEq

/-- Transcription of the while loop of GaussJacobiMethod.calculate (lines
301-356): the fresh vector xNew is computed from x alone, compared, recorded,
and only then copied into x for the next sweep. -/
def jacobiLoop (A : List (List ℚ)) (b : List ℚ) (tol : ℚ) :
    Nat → Nat → List ℚ → List ℚ → List JacobiRec → LinLoopOut JacobiRec
| 0, _, _, xNewBuf, its => ⟨its, none, xNewBuf⟩
| fuel + 1, iter, x, _, its =>
  let xNew := jacobiSweep A b x
  let err := maxAbsDiff xNew x A.length
  let its2 := its ++ [⟨iter + 1, x, xNew, err, residualSq A b xNew⟩]
  if err < tol then ⟨its2, some xNew, xNew⟩
  else jacobiLoop A b tol fuel (iter + 1) xNew xNew its2

/-- Transcription of GaussJacobiMethod.calculate (lines 285-362); the xNew
buffer starts as the zero vector of line 293. -/
def gaussJacobiCalculate (p : LinearParams) (st : MethodState (List ℚ) JacobiRec) :
    MethodState (List ℚ) JacobiRec × List String × Option JsErr :=
  let vw := linearValidateParams p
  match vw.2 with
  | Except.error e => (st, vw.1, some e)
  | Except.ok _ =>
    let out := jacobiLoop p.matrix p.vector p.tolerance p.maxIterations.toNat 0 p.initialGuess
      (List.replicate p.matrix.length 0) []
    match out.result with
    | some r => ({ result := some r, iterations := out.iterations }, vw.1, none)
    | none =>
      ({ result := some out.xEnd, iterations := out.iterations },
        vw.1 ++ ["Máximo de iteraciones alcanzado sin convergencia"], none)

/-- Parameters of LagrangePolynomial.calculate (src/unnamed/part_001). -/
structure LagrangeParams where
  xPoints : List ℚ
  yPoints : List ℚ
  xEval : ℚ

/-- Transcription of LagrangePolynomial.validateParams (lines 21-58): matching
lengths, at least two points, distinct x values via the Set-size test; the
isNaN loops are identities over the rationals. -/
def lagrangeValidateParams (p : LagrangeParams) : Except JsErr Unit :=
  if p.xPoints.length ≠ p.yPoints.length then
    Except.error (JsErr.jsError "Los arrays de x e y deben tener el mismo tamaño")
  else if p.xPoints.length < 2 then
    Except.error (JsErr.jsError "Se necesitan al menos 2 puntos para la interpolación")
  else if p.xPoints.dedup.length ≠ p.xPoints.length then
    Except.error (JsErr.jsError "Los valores de x no pueden estar repetidos")
  else Except.ok ()

/-- Transcription of LagrangePolynomial.calculateBasisPolynomial (lines
96-107). -/
def calculateBasisPolynomial (xPoints : List ℚ) (i : Nat) (x : ℚ) : ℚ :=
  (List.range xPoints.length).foldl
    (fun li j =>
      if i ≠ j then li * ((x - vEntry xPoints j) / (vEntry xPoints i - vEntry xPoints j))
      else li)
    1

/-- Numerator product accumulated in the record-building loop (lines 144-152). -/
def lagrangeNumerator (xs : List ℚ) (i : Nat) (xe : ℚ) : ℚ :=
  (List.range xs.length).foldl
    (fun nu j => if i ≠ j then nu * (xe - vEntry xs j) else nu) 1

/-- Denominator product accumulated in the record-building loop (lines
144-152). -/
def lagrangeDenominator (xs : List ℚ) (i : Nat) : ℚ :=
  (List.range xs.length).foldl
    (fun de j => if i ≠ j then de * (vEntry xs i - vEntry xs j) else de) 1

/-- Iteration record pushed by the Lagrange term loop (lines 156-166); the two
display-string fields of the source, rendering the same numbers, are not
modelled. -/
structure LagrangeRec where
  i : Nat
  xi : ℚ
  yi : ℚ
  li : ℚ
  numerator : ℚ
  denominator : ℚ
  term : ℚ
  runningSum : ℚ
deriving DecidableEq

/-- Term accumulation loop of LagrangePolynomial.calculate (lines 130-169). -/
def lagrangeMainLoop (xs ys : List ℚ) (xe : ℚ) : ℚ × List LagrangeRec :=
  (List.range xs.length).foldl
    (fun acc i =>
      let li := calculateBasisPolynomial xs i xe
      let term := vEntry ys i * li
      let res2 := acc.1 + term
      (res2, acc.2 ++
        [⟨i, vEntry xs i, vEntry ys i, li, lagrangeNumerator xs i xe,
          lagrangeDenominator xs i, term, res2⟩]))
    (0, [])

/-- Self-verification loop of lines 179-189: largest deviation of the
interpolant from the data at the nodes. -/
def lagrangeMaxError (xs ys : List ℚ) : ℚ :=
  (List.range xs.length).foldl
    (fun me i =>
      let pxi := (List.range xs.length).foldl
        (fun s j => s + vEntry ys j * calculateBasisPolynomial xs j (vEntry xs i)) 0
      max me |pxi - vEntry ys i|)
    0

/-- Minimum of a spread over Math.min; equals the list minimum on the nonempty
lists validation admits. -/
def listMin (l : List ℚ) : ℚ := l.foldl min (l.headD 0)

/-- Maximum of a spread over Math.max. -/
def listMax (l : List ℚ) : ℚ := l.foldl max (l.headD 0)

/-- Transcription of LagrangePolynomial.calculate (lines 116-204): after
validation the computation is pure arithmetic and cannot throw; the
verification warning of line 192 and the extrapolation warnings of lines
200-202 are collected in source order, with the interpolated numbers of the
message texts elided. -/
def lagrangeCalculate (p : LagrangeParams) (st : MethodState ℚ LagrangeRec) :
    MethodState ℚ LagrangeRec × List String × Option JsErr :=
  match lagrangeValidateParams p with
  | Except.error e => (st, [], some e)
  | Except.ok _ =>
    let main := lagrangeMainLoop p.xPoints p.yPoints p.xEval
    let ws1 : List String :=
      if lagrangeMaxError p.xPoints p.yPoints > 1 / 10 ^ 10 then
        ["Error máximo en la interpolación"]
      else []
    let minX := listMin p.xPoints
    let maxX := listMax p.xPoints
    let ws2 : List String :=
      if p.xEval < minX ∨ p.xEval > maxX then
        ["ADVERTENCIA: x está fuera del intervalo",
         "Se está realizando extrapolación, los resultados pueden ser menos confiables"]
      else []
    ({ result := some main.1, iterations := main.2 }, ws1 ++ ws2, none)

/-- Parameters of NumericalIntegration.calculate (src/unnamed/part_003).  The
subdivision count keeps the JS number type; validation enforces that it is a
positive integer. -/
structure IntegrationParams where
  function : String
  a : ℚ
  b : ℚ
  n : ℚ

/-- Transcription of NumericalIntegration.validateParams (lines 21-45),
checks in source order; the falsy test on n is the zero test over the
rationals. -/
def integrationValidateParams (p : IntegrationParams) : Except JsErr Unit :=
  if p.function.trim = "" then
    Except.error (JsErr.jsError "La función no puede estar vacía")
  else if p.b ≤ p.a then
    Except.error (JsErr.jsError "El límite inferior debe ser menor que el superior")
  else if p.n = 0 ∨ p.n ≤ 0 then
    Except.error (JsErr.jsError "El número de subdivisiones debe ser mayor que cero")
  else if p.n.den ≠ 1 then
    Except.error (JsErr.jsError "El número de subdivisiones debe ser un entero")
  else Except.ok ()

/-- Iteration record pushed by the trapezoid loop (lines 95-102); runningSum
is the sumPartial field, the accumulated weighted sum times the step. -/
structure IntegrationRec where
  i : Nat
  x : ℚ
  fx : ℚ
  weight : ℚ
  contribution : ℚ
  runningSum : ℚ
deriving DecidableEq

/-- Evaluation points of the trapezoid loop, x = a + i * h for i from 0 to
nVal. -/
def trapPoints (a h : ℚ) (nVal : Nat) : List ℚ :=
  (List.range (nVal + 1)).map (fun (i : ℕ) => a + (i : ℚ) * h)

/-- Trapezoid weight of lines 87-90. -/
def trapWeight (i nVal : Nat) : ℚ := if i = 0 ∨ i = nVal then 1 / 2 else 1

/-- Evaluate f left to right, keeping the successful prefix and the first
thrown error; transcribes the try block of lines 79-84, which aborts the
loop at the first failing point. -/
def evalValues (f : ℚ → Except JsErr ℚ) : List ℚ → List ℚ × Option JsErr
| [] => ([], none)
| x :: rest =>
  match f x with
  | Except.error e => ([], some e)
  | Except.ok v =>
    let g := evalValues f rest
    (v :: g.1, g.2)

/-- Weighted-sum and record accumulation of the trapezoid loop (lines
75-107), applied to the evaluated values; together with evalValues this is
the direct transcription of the single source loop. -/
def trapAccum (a h : ℚ) (nVal : Nat) (vals : List ℚ) : ℚ × List IntegrationRec :=
  (List.range vals.length).foldl
    (fun acc i =>
      let w := trapWeight i nVal
      let fx := vEntry vals i
      let s2 := acc.1 + w * fx
      (s2, acc.2 ++ [⟨i, a + (i : ℚ) * h, fx, w, w * fx * h, s2 * h⟩]))
    (0, [])

/-- Simpson coefficient of lines 119-125. -/
def simpsonCoef (i nVal : Nat) : ℚ :=
  if i = 0 ∨ i = nVal then 1 else if i % 2 = 1 then 4 else 2

/-- Simpson accumulation of lines 113-126 over the same evaluation values. -/
def simpsonSumOf (vals : List ℚ) (nVal : Nat) : ℚ :=
  (List.range vals.length).foldl
    (fun s i => s + simpsonCoef i nVal * vEntry vals i) 0

/-- Transcription of NumericalIntegration.calculate (lines 55-137).  The
middle component carries the Simpson cross-check value of line 128, computed
exactly when nVal is even; the source only logs it.  Because evaluation is
deterministic, the Simpson re-evaluations of line 117 succeed whenever the
trapezoid loop succeeded.  A throw inside the loop leaves this.result at its
prior value, since this method resets only this.iterations (line 71). -/
def integrationCalculate (f : ℚ → Except JsErr ℚ) (p : IntegrationParams)
    (st : MethodState ℚ IntegrationRec) :
    MethodState ℚ IntegrationRec × Option ℚ × Option JsErr :=
  match integrationValidateParams p with
  | Except.error e => (st, none, some e)
  | Except.ok _ =>
    let nVal := p.n.num.toNat
    let h := (p.b - p.a) / (nVal : ℚ)
    let ev := evalValues f (trapPoints p.a h nVal)
    let acc := trapAccum p.a h nVal ev.1
    match ev.2 with
    | some e => ({ result := st.result, iterations := acc.2 }, none, some e)
    | none =>
      if nVal % 2 = 0 then
        ({ result := some (acc.1 * h), iterations := acc.2 },
          some ((h / 3) * simpsonSumOf ev.1 nVal), none)
      else
        ({ result := some (acc.1 * h), iterations := acc.2 }, none, none)

/-- Parameters of NumericalDifferentiation.calculate (src/unnamed/part_002). -/
structure DiffParams where
  function : String
  x : ℚ
  h : ℚ
  method : String

/-- Transcription of NumericalDifferentiation.validateParams (lines 21-50)
with its step-size warnings; the isNaN checks are identities. -/
def diffValidateParams (p : DiffParams) : List String × Except JsErr Unit :=
  if p.function.trim = "" then
    ([], Except.error (JsErr.jsError "La función no puede estar vacía"))
  else if p.h ≤ 0 then
    ([], Except.error (JsErr.jsError "El tamaño del paso h debe ser un número positivo"))
  else
    let ws :=
      (if p.h > 1 then
        ["El tamaño del paso h es muy grande, los resultados pueden ser imprecisos"]
       else []) ++
      (if p.h < 1 / 10 ^ 10 then
        ["El tamaño del paso h es muy pequeño, pueden ocurrir errores de redondeo"]
       else [])
    if ¬ ["forward", "backward", "central"].contains p.method then
      (ws, Except.error (JsErr.jsError "El método debe ser: forward, backward o central"))
    else (ws, Except.ok ())

/-- Result record of one finite-difference computation (the per-method return
objects of lines 69-79, 99-109 and 131-143, keeping the shared numeric
fields). -/
structure DiffRec where
  method : String
  x : ℚ
  fx : ℚ
  h : ℚ
  derivative : ℚ
  errorEstimate : ℚ
deriving DecidableEq

/-- Transcription of NumericalDifferentiation.forwardDifference (lines
59-80). -/
def forwardDifference (f : ℚ → Except JsErr ℚ) (x h : ℚ) : Except JsErr DiffRec :=
  match f x with
  | Except.error e => Except.error e
  | Except.ok fx =>
  match f (x + h) with
  | Except.error e => Except.error e
  | Except.ok fxh =>
  match f (x + 2 * h) with
  | Except.error e => Except.error e
  | Except.ok fx2h =>
    let derivative := (fxh - fx) / h
    let secondDerivative := (fx2h - 2 * fxh + fx) / (h * h)
    Except.ok ⟨"Diferencias hacia adelante", x, fx, h, derivative, |h * secondDerivative / 2|⟩

/-- Transcription of NumericalDifferentiation.backwardDifference (lines
89-110). -/
def backwardDifference (f : ℚ → Except JsErr ℚ) (x h : ℚ) : Except JsErr DiffRec :=
  match f x with
  | Except.error e => Except.error e
  | Except.ok fx =>
  match f (x - h) with
  | Except.error e => Except.error e
  | Except.ok fxh =>
  match f (x - 2 * h) with
  | Except.error e => Except.error e
  | Except.ok fx2h =>
    let derivative := (fx - fxh) / h
    let secondDerivative := (fx - 2 * fxh + fx2h) / (h * h)
    Except.ok ⟨"Diferencias hacia atrás", x, fx, h, derivative, |h * secondDerivative / 2|⟩

/-- Transcription of NumericalDifferentiation.centralDifference (lines
119-144). -/
def centralDifference (f : ℚ → Except JsErr ℚ) (x h : ℚ) : Except JsErr DiffRec :=
  match f (x + h) with
  | Except.error e => Except.error e
  | Except.ok fxhPlus =>
  match f (x - h) with
  | Except.error e => Except.error e
  | Except.ok fxhMinus =>
  match f x with
  | Except.error e => Except.error e
  | Except.ok fx =>
  match f (x + 2 * h) with
  | Except.error e => Except.error e
  | Except.ok fx2hPlus =>
  match f (x - 2 * h) with
  | Except.error e => Except.error e
  | Except.ok fx2hMinus =>
    let derivative := (fxhPlus - fxhMinus) / (2 * h)
    let fourthDerivative :=
      (fx2hPlus - 4 * fxhPlus + 6 * fx - 4 * fxhMinus + fx2hMinus) / (h * h * h * h)
    Except.ok ⟨"Diferencias centrales", x, fx, h, derivative, |h * h * fourthDerivative / 6|⟩

/-- Dispatch of the switch statements on lines 172-184 and 195-205. -/
def diffStep (f : ℚ → Except JsErr ℚ) (method : String) (x : ℚ) :
    ℚ → Except JsErr DiffRec :=
  if method = "forward" then forwardDifference f x
  else if method = "backward" then backwardDifference f x
  else centralDifference f x

/-- Convergence-analysis sweep of lines 189-208: recompute the derivative at
the ladder of step sizes purely for logging; only a thrown error is
observable. -/
def diffSweep (step : ℚ → Except JsErr DiffRec) : List ℚ → Option JsErr
| [] => none
| hv :: rest =>
  match step hv with
  | Except.error e => some e
  | Except.ok _ => diffSweep step rest

/-- Transcription of NumericalDifferentiation.calculate (lines 154-218).  The
method resets this.iterations before the try block but never nulls
this.result, so a throw inside the try leaves the previous result value in
place with an empty trace. -/
def diffCalculate (f : ℚ → Except JsErr ℚ) (p : DiffParams)
    (st : MethodState ℚ DiffRec) : MethodState ℚ DiffRec × List String × Option JsErr :=
  let vw := diffValidateParams p
  match vw.2 with
  | Except.error e => (st, vw.1, some e)
  | Except.ok _ =>
    let step := diffStep f p.method p.x
    match step p.h with
    | Except.error e => ({ result := st.result, iterations := [] }, vw.1, some e)
    | Except.ok rec0 =>
      let sweep := diffSweep step
        [p.h * 10, p.h * 5, p.h * 2, p.h, p.h / 2, p.h / 5, p.h / 10]
      match sweep with
      | some e =>
        ({ result := some rec0.derivative, iterations := [rec0] }, vw.1, some e)
      | none =>
        ({ result := some rec0.derivative, iterations := [rec0] }, vw.1, none)

/-- Parameters of the documented bisection test run of spec section 8. -/
def bisectionSpecParams : BisectionParams := ⟨"x^2-2", 1, 2, 1 / 1000000, 50⟩

/-- Concrete interpretation of the math names for closed statements; none of
the runs below reaches a whitelisted function call. -/
def zeroMathFns : MathFns :=
  ⟨fun _ => 0, fun _ => 0, fun _ => 0, fun _ => 0, fun _ => 0, fun _ => 0⟩

/-- Fixed-point parameters with the runaway constant map and a tolerance large
enough to accept the first iterate. -/
def fixedPointHugeTolParams : FixedPointParams := ⟨"100000000000", 0, 10 ^ 20, 50⟩

/-- Runaway constant map used by the C3 witness. -/
def hugeConstMap : ℚ → Except JsErr ℚ := fun _ => Except.ok (10 ^ 11)

/-- Affine map with unit derivative and huge root used by the C3 witness. -/
def hugeShiftMap : ℚ → Except JsErr ℚ := fun q => Except.ok (q + 10 ^ 11)

/-- C1: the compilation invariant fails on the code.  The expression alert(1)
is not a whitelisted token sequence, yet NumericalMethod.evaluateFunction has
no rejection path: the rewriting of lines 58-69 leaves the foreign identifier
untouched and line 71 hands it verbatim to the dynamically executed Function
source. -/
theorem claim_C1 :
    specWhitelistedTokens "alert(1)" = false ∧
    rewriteExpression "alert(1)" 2 = "alert(1)" ∧
    evaluateFunctionSource "alert(1)" 2 = "\"use strict\"; return (alert(1))" := by
  refine ⟨?_, ?_, ?_⟩ <;> with_unfolding_all rfl


/-- C2: the documented bisection run on x^2-2 over [1,2] with tolerance 1e-6
does not converge.  The first iteration computes c = 3/2 with f(c) = 1/4 and
half-width 1/2, fails both convergence tests, and the narrowing step then
throws the strict-mode TypeError because fa and fb are const bindings; the
call aborts after a single iteration with no result. -/
theorem claim_C2 (fns : MathFns) :
    (bisectionCalculate (evaluateFunction fns "x^2-2") bisectionSpecParams freshState).2 =
      some (JsErr.typeError "Assignment to constant variable.") ∧
    (bisectionCalculate (evaluateFunction fns "x^2-2") bisectionSpecParams freshState).1.result =
      none ∧
    (bisectionCalculate (evaluateFunction fns "x^2-2") bisectionSpecParams
      freshState).1.iterations.length = 1 := by
  refine ⟨?_, ?_, ?_⟩ <;> with_unfolding_all rfl

/-- C5: concrete evaluator values: the quadratic at 2 yields exactly 8, the
sine expression at 0 yields the sine interpretation applied to 0 (hence 0 for
the real sine), and the malformed text 2+*3 throws the evaluation error
instead of returning a value. -/
theorem claim_C5 (fns : MathFns) :
    evaluateFunction fns "x^2+3*x-2" 2 = Except.ok 8 ∧
    evaluateFunction fns "sin(x)" 0 = Except.ok (fns.sin 0) ∧
    evaluateFunction fns "2+*3" 0 = Except.error (JsErr.jsError "Función inválida") := by
  refine ⟨?_, ?_, ?_⟩ <;> with_unfolding_all rfl

/-- C10: with a nonempty function text, a lower bound at or above the upper
bound makes both the bisection and the integration validation throw the
bound-ordering error, whatever the remaining fields hold. -/
theorem claim_C10 :
    (∀ p : BisectionParams, p.function.trim ≠ "" → p.b ≤ p.a →
      bisectionValidateParams p =
        Except.error (JsErr.jsError "El límite inferior debe ser menor que el superior")) ∧
    (∀ p : IntegrationParams, p.function.trim ≠ "" → p.b ≤ p.a →
      integrationValidateParams p =
        Except.error (JsErr.jsError "El límite inferior debe ser menor que el superior")) := by
  constructor <;>
    · intro p h1 h2
      first
      | unfold bisectionValidateParams
      | unfold integrationValidateParams
      rw [if_neg h1, if_pos h2]

/-- Witness for C10 at the concrete records a = 2, b = 1 with every other
field valid. -/
theorem claim_C10_witness :
    bisectionValidateParams ⟨"x", 2, 1, 1 / 100, 10⟩ =
      Except.error (JsErr.jsError "El límite inferior debe ser menor que el superior") ∧
    integrationValidateParams ⟨"x", 2, 1, 10⟩ =
      Except.error (JsErr.jsError "El límite inferior debe ser menor que el superior") :=
  ⟨claim_C10.1 ⟨"x", 2, 1, 1 / 100, 10⟩ (by with_unfolding_all decide)
      (by norm_num),
   claim_C10.2 ⟨"x", 2, 1, 10⟩ (by with_unfolding_all decide) (by norm_num)⟩



/-- C3 counterexample: with g constantly 1e11 and tolerance 1e20, the first
iterate exceeds the 1e10 runaway threshold, yet the run returns it as the
result with no error, because line 86 tests convergence before line 94 tests
divergence; the claim that such an iterate always raises a fatal divergence
error is false on the code. -/
theorem claim_C3_counterexample :
    (fixedPointCalculate (evaluateFunction zeroMathFns "100000000000")
        fixedPointHugeTolParams freshState).1.result = some (10 ^ 11) ∧
    (fixedPointCalculate (evaluateFunction zeroMathFns "100000000000")
        fixedPointHugeTolParams freshState).2 = none ∧
    ((10 : ℚ) ^ 11 > 10 ^ 10) := by
  refine ⟨?_, ?_, by norm_num⟩ <;> with_unfolding_all rfl

/-- Validation success forces a positive iteration budget (fixed point). -/
lemma fixedPointValidate_pos (p : FixedPointParams)
    (hv : fixedPointValidateParams p = Except.ok ()) : 0 < p.maxIterations := by
  unfold fixedPointValidateParams at hv
  split_ifs at hv with h1 h2 h3
  omega

/-- Validation success forces a positive iteration budget (Newton). -/
lemma newtonValidate_pos (p : NewtonParams)
    (hv : newtonValidateParams p = Except.ok ()) : 0 < p.maxIterations := by
  unfold newtonValidateParams at hv
  split_ifs at hv with h1 h2 h3
  omega

/-- C3 amended: for Fixed-Point and Newton-Raphson a next iterate whose
magnitude exceeds 1e10 raises the fatal divergence error provided the
convergence test of the same step fails; when the convergence test accepts
the iterate it is returned as the result instead (claim_C3_counterexample),
because both methods test convergence before divergence, and the non-finite
disjunct exists only in Newton. -/
theorem claim_C3 :
    (∀ (g : ℚ → Except JsErr ℚ) (p : FixedPointParams)
        (st : MethodState ℚ FixedPointRec) (x1 : ℚ),
      fixedPointValidateParams p = Except.ok () →
      g p.x0 = Except.ok x1 →
      ¬ |x1 - p.x0| < p.tolerance →
      |x1| > 10 ^ 10 →
      (fixedPointCalculate g p st).2 =
        some (JsErr.jsError "El método diverge con el valor inicial dado")) ∧
    (∀ (f : ℚ → Except JsErr ℚ) (p : NewtonParams)
        (st : MethodState ℚ NewtonRec) (fx fpx : ℚ),
      newtonValidateParams p = Except.ok () →
      f p.x0 = Except.ok fx →
      calculateDerivative f p.x0 = Except.ok fpx →
      ¬ |fpx| < 1 / 10 ^ 10 →
      ¬ |p.x0 - fx / fpx - p.x0| < p.tolerance →
      ¬ |fx| < p.tolerance →
      |p.x0 - fx / fpx| > 10 ^ 10 →
      (newtonCalculate f p st).2 =
        some (JsErr.jsError "El método diverge con el valor inicial dado")) := by
  constructor
  · intro g p st x1 hv hg herr hdiv
    have hpos := fixedPointValidate_pos p hv
    have hne : p.maxIterations.toNat ≠ 0 := by
      rw [Ne, Int.toNat_eq_zero]
      omega
    obtain ⟨k, hk⟩ := Nat.exists_eq_succ_of_ne_zero hne
    unfold fixedPointCalculate
    rw [hv, hk]
    simp only [fixedPointLoop, hg, if_neg herr, if_pos hdiv]
  · intro f p st fx fpx hv hfx hfpx hsmall herr hfxtol hdiv
    have hpos := newtonValidate_pos p hv
    have hne : p.maxIterations.toNat ≠ 0 := by
      rw [Ne, Int.toNat_eq_zero]
      omega
    obtain ⟨k, hk⟩ := Nat.exists_eq_succ_of_ne_zero hne
    unfold newtonCalculate
    rw [hv, hk]
    simp only [newtonLoop, hfx, hfpx, if_neg hsmall, if_neg (not_or.mpr ⟨herr, hfxtol⟩),
      if_pos hdiv]



/-- Witness for C3 at tolerance 1: both methods throw the divergence error on
their first step. -/
theorem claim_C3_witness :
    (fixedPointCalculate hugeConstMap ⟨"g", 0, 1, 50⟩ freshState).2 =
      some (JsErr.jsError "El método diverge con el valor inicial dado") ∧
    (newtonCalculate hugeShiftMap ⟨"f", 0, 1, 50⟩ freshState).2 =
      some (JsErr.jsError "El método diverge con el valor inicial dado") :=
  ⟨claim_C3.1 hugeConstMap ⟨"g", 0, 1, 50⟩ freshState (10 ^ 11)
      (by with_unfolding_all rfl) (by with_unfolding_all rfl)
      (by rw [sub_zero, abs_of_nonneg (by norm_num)]; norm_num)
      (by rw [abs_of_nonneg (by norm_num)]; norm_num),
   claim_C3.2 hugeShiftMap ⟨"f", 0, 1, 50⟩ freshState (0 + 10 ^ 11) 1
      (by with_unfolding_all rfl) (by with_unfolding_all rfl)
      (by with_unfolding_all rfl)
      (by norm_num)
      (by norm_num [abs_of_nonpos])
      (by rw [abs_of_nonneg (by norm_num)]; norm_num)
      (by rw [abs_of_nonpos (by norm_num)]; norm_num)⟩

/-- C8: under passing validation, an evaluation point outside the node range
is not an error: the run throws nothing, still stores the numeric
interpolated value, and logs the extrapolation warning. -/
theorem claim_C8 (p : LagrangeParams) (st : MethodState ℚ LagrangeRec)
    (hv : lagrangeValidateParams p = Except.ok ())
    (hout : p.xEval < listMin p.xPoints ∨ p.xEval > listMax p.xPoints) :
    (lagrangeCalculate p st).2.2 = none ∧
    (lagrangeCalculate p st).1.result =
      some (lagrangeMainLoop p.xPoints p.yPoints p.xEval).1 ∧
    "Se está realizando extrapolación, los resultados pueden ser menos confiables" ∈
      (lagrangeCalculate p st).2.1 := by
  unfold lagrangeCalculate
  rw [hv]
  refine ⟨rfl, rfl, ?_⟩
  simp only [if_pos hout]
  exact List.mem_append_right _ (by simp)

/-- Witness for C8 on the documented points (0,1), (1,2), (2,5) evaluated at
3, outside [0,2]. -/
theorem claim_C8_witness :
    (lagrangeCalculate ⟨[0, 1, 2], [1, 2, 5], 3⟩ freshState).2.2 = none ∧
    (lagrangeCalculate ⟨[0, 1, 2], [1, 2, 5], 3⟩ freshState).1.result =
      some (lagrangeMainLoop [0, 1, 2] [1, 2, 5] 3).1 ∧
    "Se está realizando extrapolación, los resultados pueden ser menos confiables" ∈
      (lagrangeCalculate ⟨[0, 1, 2], [1, 2, 5], 3⟩ freshState).2.1 :=
  claim_C8 ⟨[0, 1, 2], [1, 2, 5], 3⟩ freshState (by with_unfolding_all rfl)
    (Or.inr (by with_unfolding_all decide))

/-- Folding a guarded addition over an index range is the guarded finite sum. -/
lemma foldl_add_if_range (c : ℕ → Prop) [DecidablePred c] (t : ℕ → ℚ) (s0 : ℚ) (m : ℕ) :
    (List.range m).foldl (fun s j => if c j then s + t j else s) s0 =
      s0 + ∑ j ∈ Finset.range m, if c j then t j else 0 := by
  induction m with
  | zero => simp
  | succ k ih =>
    rw [List.range_succ, List.foldl_append, ih, Finset.sum_range_succ, List.foldl_cons,
      List.foldl_nil]
    split_ifs <;> ring

/-- Folding a plain addition over an index range is the finite sum. -/
lemma foldl_add_range (t : ℕ → ℚ) (s0 : ℚ) (m : ℕ) :
    (List.range m).foldl (fun s j => s + t j) s0 = s0 + ∑ j ∈ Finset.range m, t j := by
  induction m with
  | zero => simp
  | succ k ih =>
    rw [List.range_succ, List.foldl_append, ih, Finset.sum_range_succ, List.foldl_cons,
      List.foldl_nil, add_assoc]

/-- The off-diagonal fold computes the erased-index finite sum of the
specification. -/
lemma offDiagAbsSum_eq (matrix : List (List ℚ)) (i : Nat) :
    offDiagAbsSum matrix i =
      ∑ j ∈ (Finset.range matrix.length).erase i, |mEntry matrix i j| := by
  unfold offDiagAbsSum
  rw [foldl_add_if_range (fun j => i ≠ j) (fun j => |mEntry matrix i j|) 0 matrix.length,
    zero_add, ← Finset.sum_filter]
  congr 1
  ext j
  simp only [Finset.mem_filter, Finset.mem_erase, Finset.mem_range]
  constructor
  · rintro ⟨hj, hne⟩
    exact ⟨fun h => hne h.symm, hj⟩
  · rintro ⟨hne, hj⟩
    exact ⟨hj, fun h => hne h.symm⟩

/-- Warnings already collected survive the rest of the dominance loop. -/
lemma mem_foldl_dominanceStep (matrix : List (List ℚ)) (l : List Nat) (ws : List String)
    (w : String) (hw : w ∈ ws) : w ∈ l.foldl (dominanceStep matrix) ws := by
  induction l generalizing ws with
  | nil => exact hw
  | cons j t ih =>
    rw [List.foldl_cons]
    refine ih _ ?_
    unfold dominanceStep
    split_ifs
    · exact List.mem_append_left _ hw
    · exact hw

/-- A row that fails strict dominance puts the non-convergence warning into
the dominance loop output. -/
lemma dominance_warning_mem (matrix : List (List ℚ)) (l : List Nat) (ws : List String)
    (i : Nat) (hi : i ∈ l) (hcond : |mEntry matrix i i| ≤ offDiagAbsSum matrix i) :
    "El método podría no converger" ∈ l.foldl (dominanceStep matrix) ws := by
  induction hi generalizing ws with
  | head t =>
    rw [List.foldl_cons]
    apply mem_foldl_dominanceStep
    unfold dominanceStep
    rw [if_pos hcond]
    simp
  | tail j hit ih =>
    rw [List.foldl_cons]
    exact ih _

/-- Successful shared validation computes the dominance warnings and succeeds. -/
lemma linearValidate_ok (p : LinearParams)
    (hsq : ∀ row ∈ p.matrix, row.length = p.matrix.length)
    (hvl : p.vector.length = p.matrix.length)
    (hgl : p.initialGuess.length = p.matrix.length)
    (hdiag : ∀ i, i < p.matrix.length → ¬ |mEntry p.matrix i i| < 1 / 10 ^ 10)
    (htol : 0 < p.tolerance)
    (hmax : 0 < p.maxIterations) :
    linearValidateParams p = (dominanceWarnings p.matrix, Except.ok ()) := by
  have hb : p.matrix.all (fun row => row.length = p.matrix.length) = true := by
    rw [List.all_eq_true]
    intro row hr
    exact decide_eq_true (hsq row hr)
  have hnone : firstSmallDiag p.matrix = none := by
    unfold firstSmallDiag
    rw [List.find?_eq_none]
    intro j hj
    simpa using hdiag j (List.mem_range.mp hj)
  unfold linearValidateParams
  rw [if_neg (not_not_intro hb), if_neg (not_not_intro hvl), if_neg (not_not_intro hgl), hnone]
  simp only [if_neg (not_le.mpr htol), if_neg (not_le.mpr hmax)]

/-- C6: a near-zero diagonal entry is fatal to the shared Jacobi and
Gauss-Seidel validation, whereas a row failing strict diagonal dominance only
logs the non-fatal warning and both solvers still run to a stored result with
nothing thrown. -/
theorem claim_C6 :
    (∀ p : LinearParams,
      (∀ row ∈ p.matrix, row.length = p.matrix.length) →
      p.vector.length = p.matrix.length →
      p.initialGuess.length = p.matrix.length →
      (∃ i, i < p.matrix.length ∧ |mEntry p.matrix i i| < 1 / 10 ^ 10) →
      ∃ msg, (linearValidateParams p).2 = Except.error (JsErr.jsError msg)) ∧
    (∀ (p : LinearParams) (st : MethodState (List ℚ) SeidelRec)
        (st2 : MethodState (List ℚ) JacobiRec),
      (∀ row ∈ p.matrix, row.length = p.matrix.length) →
      p.vector.length = p.matrix.length →
      p.initialGuess.length = p.matrix.length →
      (∀ i, i < p.matrix.length → ¬ |mEntry p.matrix i i| < 1 / 10 ^ 10) →
      0 < p.tolerance →
      0 < p.maxIterations →
      (∃ i, i < p.matrix.length ∧
        |mEntry p.matrix i i| ≤
          ∑ j ∈ (Finset.range p.matrix.length).erase i, |mEntry p.matrix i j|) →
      (linearValidateParams p).2 = Except.ok () ∧
      "El método podría no converger" ∈ (linearValidateParams p).1 ∧
      (gaussSeidelCalculate p st).2.2 = none ∧
      (gaussSeidelCalculate p st).1.result.isSome = true ∧
      (gaussJacobiCalculate p st2).2.2 = none ∧
      (gaussJacobiCalculate p st2).1.result.isSome = true) := by
  constructor
  · rintro p hsq hvl hgl ⟨i, hin, hsmall⟩
    have hb : p.matrix.all (fun row => row.length = p.matrix.length) = true := by
      rw [List.all_eq_true]
      intro row hr
      exact decide_eq_true (hsq row hr)
    have hfind : (firstSmallDiag p.matrix).isSome = true := by
      unfold firstSmallDiag
      rw [List.find?_isSome]
      exact ⟨i, List.mem_range.mpr hin, decide_eq_true hsmall⟩
    obtain ⟨i0, hi0⟩ := Option.isSome_iff_exists.mp hfind
    unfold linearValidateParams
    rw [if_neg (not_not_intro hb), if_neg (not_not_intro hvl), if_neg (not_not_intro hgl), hi0]
    exact ⟨_, rfl⟩
  · rintro p st st2 hsq hvl hgl hdiag htol hmax ⟨i, hin, hdom⟩
    have hval := linearValidate_ok p hsq hvl hgl hdiag htol hmax
    have hwarn : "El método podría no converger" ∈ (linearValidateParams p).1 := by
      rw [hval]
      unfold dominanceWarnings
      exact dominance_warning_mem p.matrix _ [] i (List.mem_range.mpr hin)
        (by rw [offDiagAbsSum_eq]; exact hdom)
    refine ⟨by rw [hval], hwarn, ?_, ?_, ?_, ?_⟩
    · unfold gaussSeidelCalculate
      rw [hval]
      cases hres : (seidelLoop p.matrix p.vector p.tolerance p.maxIterations.toNat 0
          p.initialGuess []).result <;> simp [hres]
    · unfold gaussSeidelCalculate
      rw [hval]
      cases hres : (seidelLoop p.matrix p.vector p.tolerance p.maxIterations.toNat 0
          p.initialGuess []).result <;> simp [hres]
    · unfold gaussJacobiCalculate
      rw [hval]
      cases hres : (jacobiLoop p.matrix p.vector p.tolerance p.maxIterations.toNat 0
          p.initialGuess (List.replicate p.matrix.length 0) []).result <;> simp [hres]
    · unfold gaussJacobiCalculate
      rw [hval]
      cases hres : (jacobiLoop p.matrix p.vector p.tolerance p.maxIterations.toNat 0
          p.initialGuess (List.replicate p.matrix.length 0) []).result <;> simp [hres]

/-- Witness for C6: the matrix with zero pivot [[0,1],[1,1]] fails validation,
and the non-dominant system [[1,2],[0,1]] only warns while both solvers
complete. -/
theorem claim_C6_witness :
    (∃ msg, (linearValidateParams ⟨[[0, 1], [1, 1]], [1, 1], [0, 0], 1, 3⟩).2 =
      Except.error (JsErr.jsError msg)) ∧
    ((linearValidateParams ⟨[[1, 2], [0, 1]], [1, 1], [0, 0], 1, 3⟩).2 = Except.ok () ∧
      "El método podría no converger" ∈
        (linearValidateParams ⟨[[1, 2], [0, 1]], [1, 1], [0, 0], 1, 3⟩).1 ∧
      (gaussSeidelCalculate ⟨[[1, 2], [0, 1]], [1, 1], [0, 0], 1, 3⟩ freshState).2.2 = none ∧
      (gaussSeidelCalculate ⟨[[1, 2], [0, 1]], [1, 1], [0, 0], 1, 3⟩
        freshState).1.result.isSome = true ∧
      (gaussJacobiCalculate ⟨[[1, 2], [0, 1]], [1, 1], [0, 0], 1, 3⟩ freshState).2.2 = none ∧
      (gaussJacobiCalculate ⟨[[1, 2], [0, 1]], [1, 1], [0, 0], 1, 3⟩
        freshState).1.result.isSome = true) :=
  ⟨claim_C6.1 ⟨[[0, 1], [1, 1]], [1, 1], [0, 0], 1, 3⟩ (by decide) rfl rfl
      ⟨0, by norm_num, by with_unfolding_all decide⟩,
   claim_C6.2 ⟨[[1, 2], [0, 1]], [1, 1], [0, 0], 1, 3⟩ freshState freshState (by decide) rfl rfl
      (by with_unfolding_all decide) (by norm_num) (by norm_num)
      ⟨0, by norm_num, by with_unfolding_all decide⟩⟩

/-- Evaluating a pure function along a list never throws and yields the
mapped values. -/
lemma evalValues_pure (g : ℚ → ℚ) (l : List ℚ) :
    evalValues (fun x => Except.ok (g x)) l = (l.map g, none) := by
  induction l with
  | nil => rfl
  | cons x t ih => simp [evalValues, ih]

/-- Reading a mapped range list at an in-range index gives the mapped index. -/
lemma vEntry_map_range (f : ℕ → ℚ) (m i : ℕ) (hi : i < m) :
    vEntry ((List.range m).map f) i = f i := by
  unfold vEntry
  rw [List.getD_eq_getElem?_getD, List.getElem?_map, List.getElem?_range hi]
  rfl

/-- First component of the trapezoid accumulation fold, with generalized
accumulators. -/
lemma trapAccum_aux (a h : ℚ) (nVal : ℕ) (vals : List ℚ) (l : List ℕ) (s0 : ℚ)
    (recs : List IntegrationRec) :
    (l.foldl (fun acc i =>
        let w := trapWeight i nVal
        let fx := vEntry vals i
        let s2 := acc.1 + w * fx
        (s2, acc.2 ++ [⟨i, a + (i : ℚ) * h, fx, w, w * fx * h, s2 * h⟩])) (s0, recs)).1 =
      l.foldl (fun s i => s + trapWeight i nVal * vEntry vals i) s0 := by
  induction l generalizing s0 recs with
  | nil => rfl
  | cons j tl ih => exact ih _ _

/-- The trapezoid accumulator computes the weighted finite sum of the
specification. -/
lemma trapAccum_fst (a h : ℚ) (nVal : ℕ) (vals : List ℚ) :
    (trapAccum a h nVal vals).1 =
      ∑ i ∈ Finset.range vals.length, trapWeight i nVal * vEntry vals i := by
  unfold trapAccum
  rw [trapAccum_aux, foldl_add_range, zero_add]

/-- The Simpson accumulator computes the coefficient-weighted finite sum. -/
lemma simpsonSumOf_eq (vals : List ℚ) (nVal : ℕ) :
    simpsonSumOf vals nVal =
      ∑ i ∈ Finset.range vals.length, simpsonCoef i nVal * vEntry vals i := by
  unfold simpsonSumOf
  rw [foldl_add_range, zero_add]

/-- C7: for every validated input with a pure integrand, the stored result is
the composite trapezoid value h times the weighted sum, nothing is thrown,
and the Simpson value is computed exactly when n is even but reaches only the
log slot, never the result. -/
theorem claim_C7 (g : ℚ → ℚ) (p : IntegrationParams) (st : MethodState ℚ IntegrationRec)
    (hv : integrationValidateParams p = Except.ok ()) :
    (integrationCalculate (fun x => Except.ok (g x)) p st).1.result =
      some (((p.b - p.a) / (p.n.num.toNat : ℚ)) *
        ∑ i ∈ Finset.range (p.n.num.toNat + 1),
          trapWeight i p.n.num.toNat *
            g (p.a + (i : ℚ) * ((p.b - p.a) / (p.n.num.toNat : ℚ)))) ∧
    (integrationCalculate (fun x => Except.ok (g x)) p st).2.2 = none ∧
    (integrationCalculate (fun x => Except.ok (g x)) p st).2.1 =
      (if p.n.num.toNat % 2 = 0 then
        some ((((p.b - p.a) / (p.n.num.toNat : ℚ)) / 3) *
          ∑ i ∈ Finset.range (p.n.num.toNat + 1),
            simpsonCoef i p.n.num.toNat *
              g (p.a + (i : ℚ) * ((p.b - p.a) / (p.n.num.toNat : ℚ))))
       else none) := by
  have hsum : ∀ w : ℕ → ℚ,
      (∑ i ∈ Finset.range ((trapPoints p.a ((p.b - p.a) / (p.n.num.toNat : ℚ))
          p.n.num.toNat).map g).length,
        w i * vEntry ((trapPoints p.a ((p.b - p.a) / (p.n.num.toNat : ℚ))
          p.n.num.toNat).map g) i) =
      ∑ i ∈ Finset.range (p.n.num.toNat + 1),
        w i * g (p.a + (i : ℚ) * ((p.b - p.a) / (p.n.num.toNat : ℚ))) := by
    intro w
    unfold trapPoints
    rw [List.map_map, List.length_map, List.length_range]
    refine Finset.sum_congr rfl (fun i hi => ?_)
    rw [vEntry_map_range _ _ _ (Finset.mem_range.mp hi)]
    rfl
  unfold integrationCalculate
  rw [hv]
  simp only [evalValues_pure]
  split_ifs with hpar
  · refine ⟨?_, rfl, ?_⟩
    · simp only [trapAccum_fst]
      rw [hsum (fun i => trapWeight i p.n.num.toNat), mul_comm]
    · simp only [simpsonSumOf_eq]
      rw [hsum (fun i => simpsonCoef i p.n.num.toNat)]
  · refine ⟨?_, rfl, ?_⟩
    · simp only [trapAccum_fst]
      rw [hsum (fun i => trapWeight i p.n.num.toNat), mul_comm]
    · rfl

/-- Witness for C7: integrating x^2 over [0,1] with n = 4 stores the
trapezoid value 11/32 while the Simpson cross-check value 1/3 reaches only
the log slot. -/
theorem claim_C7_witness :
    (integrationCalculate (fun x => Except.ok (x ^ 2)) ⟨"x^2", 0, 1, 4⟩ freshState).1.result =
      some (11 / 32) ∧
    (integrationCalculate (fun x => Except.ok (x ^ 2)) ⟨"x^2", 0, 1, 4⟩ freshState).2.1 =
      some (1 / 3) := by
  have h := claim_C7 (fun x => x ^ 2) ⟨"x^2", 0, 1, 4⟩ freshState (by with_unfolding_all rfl)
  have h4 : ((4 : ℚ).num.toNat : ℚ) = 4 := by with_unfolding_all rfl
  have h4n : (4 : ℚ).num.toNat = 4 := by with_unfolding_all rfl
  obtain ⟨h1, _, h3⟩ := h
  constructor
  · rw [h1]
    simp only [h4, h4n]
    norm_num [Finset.sum_range_succ, trapWeight]
  · rw [h3]
    simp only [h4, h4n]
    norm_num [Finset.sum_range_succ, simpsonCoef]

/-- Setting an index then reading it back gives the written value. -/
lemma vEntry_set_self (xs : List ℚ) (i : Nat) (v : ℚ) (h : i < xs.length) :
    vEntry (xs.set i v) i = v := by
  unfold vEntry
  rw [List.getD_eq_getElem?_getD, List.getElem?_set_self h]
  rfl

/-- Setting an index leaves every other entry unchanged. -/
lemma vEntry_set_ne (xs : List ℚ) (i j : Nat) (v : ℚ) (h : i ≠ j) :
    vEntry (xs.set i v) j = vEntry xs j := by
  unfold vEntry
  rw [List.getD_eq_getElem?_getD, List.getElem?_set_ne h, ← List.getD_eq_getElem?_getD]

/-- A chain of in-place updates preserves length. -/
lemma foldl_seidelUpdate_length (A : List (List ℚ)) (b : List ℚ) (n : Nat)
    (l : List ℕ) (xs : List ℚ) :
    (l.foldl (seidelUpdate A b n) xs).length = xs.length := by
  induction l generalizing xs with
  | nil => rfl
  | cons i t ih =>
    rw [List.foldl_cons, ih]
    exact List.length_set xs i _

/-- A chain of in-place updates at indices different from j leaves entry j
unchanged. -/
lemma foldl_seidelUpdate_vEntry_ne (A : List (List ℚ)) (b : List ℚ) (n : Nat)
    (l : List ℕ) (xs : List ℚ) (j : Nat) (hj : ∀ i ∈ l, j ≠ i) :
    vEntry (l.foldl (seidelUpdate A b n) xs) j = vEntry xs j := by
  induction l generalizing xs with
  | nil => rfl
  | cons i t ih =>
    rw [List.foldl_cons, ih _ (fun i2 h2 => hj i2 (List.mem_cons_of_mem i h2))]
    exact vEntry_set_ne xs i j _ (fun h => hj i (List.mem_cons_self i t) h.symm)

/-- Entries below k of the partial sweep over the first k indices are final:
further updates do not change them. -/
lemma seidelPartial_stable (A : List (List ℚ)) (b : List ℚ) (n : Nat) (x : List ℚ)
    (k k2 j : Nat) (hk : k ≤ k2) (hj : j < k) :
    vEntry ((List.range k2).foldl (seidelUpdate A b n) x) j =
      vEntry ((List.range k).foldl (seidelUpdate A b n) x) j := by
  obtain ⟨d, rfl⟩ := Nat.exists_eq_add_of_le hk
  rw [List.range_add, List.foldl_append]
  exact foldl_seidelUpdate_vEntry_ne A b n _ _ j
    (fun i hi => by
      obtain ⟨i0, _, rfl⟩ := List.mem_map.mp hi
      omega)

/-- Entries of the incoming iterate at indices at or above k are untouched by
the partial sweep over the first k indices. -/
lemma seidelPartial_untouched (A : List (List ℚ)) (b : List ℚ) (n : Nat) (x : List ℚ)
    (k j : Nat) (hj : k ≤ j) :
    vEntry ((List.range k).foldl (seidelUpdate A b n) x) j = vEntry x j := by
  exact foldl_seidelUpdate_vEntry_ne A b n _ _ j
    (fun i hi => by
      have := List.mem_range.mp hi
      omega)

/-- Folding addition over a shifted range is the Ico finite sum. -/
lemma foldl_add_range' (t : ℕ → ℚ) (s0 : ℚ) (s m : ℕ) :
    (List.range' s m).foldl (fun acc j => acc + t j) s0 =
      s0 + ∑ j ∈ Finset.Ico s (s + m), t j := by
  induction m generalizing s s0 with
  | zero => simp
  | succ k ih =>
    rw [List.range'_succ, List.foldl_cons, ih (s0 + t s) (s + 1)]
    have hsk : s + 1 + k = s + (k + 1) := by omega
    rw [hsk, Finset.sum_eq_sum_Ico_succ_bot (show s < s + (k + 1) by omega) t]
    ring

/-- Folding a sum guarded by inequality with a fixed index over a range is the
erased-index finite sum. -/
lemma foldl_add_ne_range (i : Nat) (t : ℕ → ℚ) (m : ℕ) :
    (List.range m).foldl (fun s j => if i ≠ j then s + t j else s) 0 =
      ∑ j ∈ (Finset.range m).erase i, t j := by
  rw [foldl_add_if_range (fun j => i ≠ j) t 0 m, zero_add, ← Finset.sum_filter]
  congr 1
  ext j
  simp only [Finset.mem_filter, Finset.mem_erase, Finset.mem_range]
  constructor
  · rintro ⟨hj, hne⟩
    exact ⟨fun h => hne h.symm, hj⟩
  · rintro ⟨hne, hj⟩
    exact ⟨hj, fun h => hne h.symm⟩

/-- The Gauss-Seidel row sum splits into the two specification sums: updated
entries below the pivot and incoming entries above it. -/
lemma seidelRowSum_eq (A : List (List ℚ)) (xs : List ℚ) (i n : Nat) (hin : i < n) :
    seidelRowSum A xs i n =
      (∑ j ∈ Finset.range i, mEntry A i j * vEntry xs j) +
        ∑ j ∈ Finset.Ico (i + 1) n, mEntry A i j * vEntry xs j := by
  unfold seidelRowSum
  rw [foldl_add_range (fun j => mEntry A i j * vEntry xs j) 0 i, zero_add,
    foldl_add_range' (fun j => mEntry A i j * vEntry xs j) _ (i + 1) (n - (i + 1))]
  have : i + 1 + (n - (i + 1)) = n := by omega
  rw [this]

/-- C4: each Jacobi sweep entry is solved from the incoming iterate only,
with the whole fresh vector swapped in afterwards, and each Gauss-Seidel
sweep entry uses the already-updated entries below the pivot and the incoming
iterate above it, following the shared update formula. -/
theorem claim_C4 :
    (∀ (A : List (List ℚ)) (b x : List ℚ) (i : Nat), i < A.length →
      vEntry (jacobiSweep A b x) i =
        (vEntry b i -
            ∑ j ∈ (Finset.range A.length).erase i, mEntry A i j * vEntry x j) /
          mEntry A i i) ∧
    (∀ (A : List (List ℚ)) (b x : List ℚ) (i : Nat), i < A.length →
      x.length = A.length →
      vEntry (seidelSweep A b x) i =
        (vEntry b i
            - ∑ j ∈ Finset.range i, mEntry A i j * vEntry (seidelSweep A b x) j
            - ∑ j ∈ Finset.Ico (i + 1) A.length, mEntry A i j * vEntry x j) /
          mEntry A i i) := by
  constructor
  · intro A b x i hi
    unfold jacobiSweep
    rw [vEntry_map_range _ _ _ hi]
    simp only [foldl_add_ne_range]
  · intro A b x i hi hx
    have hlen : ∀ k : Nat, ((List.range k).foldl (seidelUpdate A b A.length) x).length =
        x.length := fun k => foldl_seidelUpdate_length A b A.length _ x
    have hsweep : seidelSweep A b x =
        (List.range A.length).foldl (seidelUpdate A b A.length) x := rfl
    have hsplit : List.range A.length =
        List.range (i + 1) ++ (List.range (A.length - (i + 1))).map ((i + 1) + ·) := by
      rw [← List.range_add]
      congr 1
      omega
    have hstep : (List.range (i + 1)).foldl (seidelUpdate A b A.length) x =
        seidelUpdate A b A.length ((List.range i).foldl (seidelUpdate A b A.length) x) i := by
      rw [List.range_succ, List.foldl_append, List.foldl_cons, List.foldl_nil]
    have htop : vEntry (seidelSweep A b x) i =
        vEntry ((List.range (i + 1)).foldl (seidelUpdate A b A.length) x) i := by
      rw [hsweep, hsplit, List.foldl_append]
      exact foldl_seidelUpdate_vEntry_ne A b A.length _ _ i
        (fun j hj => by
          obtain ⟨j0, _, rfl⟩ := List.mem_map.mp hj
          omega)
    have hvali : vEntry (seidelSweep A b x) i =
        (vEntry b i -
          seidelRowSum A ((List.range i).foldl (seidelUpdate A b A.length) x) i A.length) /
            mEntry A i i := by
      rw [htop, hstep]
      exact vEntry_set_self _ i _ (by rw [hlen i, hx]; exact hi)
    rw [hvali, seidelRowSum_eq A _ i A.length hi]
    have hlow : ∀ j, j < i →
        vEntry ((List.range i).foldl (seidelUpdate A b A.length) x) j =
          vEntry (seidelSweep A b x) j := by
      intro j hj
      rw [hsweep]
      exact (seidelPartial_stable A b A.length x i A.length j (by omega) hj).symm
    have hhigh : ∀ j, i + 1 ≤ j →
        vEntry ((List.range i).foldl (seidelUpdate A b A.length) x) j = vEntry x j := by
      intro j hj
      exact seidelPartial_untouched A b A.length x i j (by omega)
    have h1 : (∑ j ∈ Finset.range i,
          mEntry A i j * vEntry ((List.range i).foldl (seidelUpdate A b A.length) x) j) =
        ∑ j ∈ Finset.range i, mEntry A i j * vEntry (seidelSweep A b x) j :=
      Finset.sum_congr rfl (fun j hj => by rw [hlow j (Finset.mem_range.mp hj)])
    have h2 : (∑ j ∈ Finset.Ico (i + 1) A.length,
          mEntry A i j * vEntry ((List.range i).foldl (seidelUpdate A b A.length) x) j) =
        ∑ j ∈ Finset.Ico (i + 1) A.length, mEntry A i j * vEntry x j :=
      Finset.sum_congr rfl (fun j hj => by rw [hhigh j (Finset.mem_Ico.mp hj).1])
    rw [h1, h2]
    ring

/-- Witness for C4 on the system [[2,1],[1,3]], b = [3,4], x = [1,1] at row
index 1. -/
theorem claim_C4_witness :
    (1 < ([[2, 1], [1, 3]] : List (List ℚ)).length ∧
      vEntry (jacobiSweep [[2, 1], [1, 3]] [3, 4] [1, 1]) 1 =
        (vEntry [3, 4] 1 -
            ∑ j ∈ (Finset.range ([[2, 1], [1, 3]] : List (List ℚ)).length).erase 1,
              mEntry [[2, 1], [1, 3]] 1 j * vEntry [1, 1] j) /
          mEntry [[2, 1], [1, 3]] 1 1) ∧
    vEntry (seidelSweep [[2, 1], [1, 3]] [3, 4] [1, 1]) 1 =
      (vEntry [3, 4] 1
          - ∑ j ∈ Finset.range 1,
              mEntry [[2, 1], [1, 3]] 1 j * vEntry (seidelSweep [[2, 1], [1, 3]] [3, 4] [1, 1]) j
          - ∑ j ∈ Finset.Ico 2 ([[2, 1], [1, 3]] : List (List ℚ)).length,
              mEntry [[2, 1], [1, 3]] 1 j * vEntry [1, 1] j) /
        mEntry [[2, 1], [1, 3]] 1 1 :=
  ⟨⟨by norm_num, claim_C4.1 [[2, 1], [1, 3]] [3, 4] [1, 1] 1 (by norm_num)⟩,
   claim_C4.2 [[2, 1], [1, 3]] [3, 4] [1, 1] 1 (by norm_num) rfl⟩

/-- C9: every method is deterministic and leaves no state that alters a
repeated run: rerunning calculate with the same parameters from the state a
fresh-instance run produced gives the identical outcome, result and
iteration trace included.  Either the run succeeds past the state reset, and
its outcome is built from the parameters alone, or it throws beforehand and
passes the incoming state through unchanged. -/
theorem claim_C9 :
    (∀ (f : ℚ → Except JsErr ℚ) (p : BisectionParams),
      bisectionCalculate f p (bisectionCalculate f p freshState).1 =
        bisectionCalculate f p freshState) ∧
    (∀ (f : ℚ → Except JsErr ℚ) (p : NewtonParams),
      newtonCalculate f p (newtonCalculate f p freshState).1 =
        newtonCalculate f p freshState) ∧
    (∀ (g : ℚ → Except JsErr ℚ) (p : FixedPointParams),
      fixedPointCalculate g p (fixedPointCalculate g p freshState).1 =
        fixedPointCalculate g p freshState) ∧
    (∀ p : LinearParams,
      gaussSeidelCalculate p (gaussSeidelCalculate p freshState).1 =
        gaussSeidelCalculate p freshState) ∧
    (∀ p : LinearParams,
      gaussJacobiCalculate p (gaussJacobiCalculate p freshState).1 =
        gaussJacobiCalculate p freshState) ∧
    (∀ p : LagrangeParams,
      lagrangeCalculate p (lagrangeCalculate p freshState).1 =
        lagrangeCalculate p freshState) ∧
    (∀ (f : ℚ → Except JsErr ℚ) (p : IntegrationParams),
      integrationCalculate f p (integrationCalculate f p freshState).1 =
        integrationCalculate f p freshState) ∧
    (∀ (f : ℚ → Except JsErr ℚ) (p : DiffParams),
      diffCalculate f p (diffCalculate f p freshState).1 =
        diffCalculate f p freshState) := by
  refine ⟨?_, ?_, ?_, ?_, ?_, ?_, ?_, ?_⟩
  · intro f p
    cases hv : bisectionValidateParams p with
    | error e => simp [bisectionCalculate, hv]
    | ok u =>
      cases u
      cases hfa : f p.a with
      | error e => simp [bisectionCalculate, hv, hfa]
      | ok fa =>
        cases hfb : f p.b with
        | error e => simp [bisectionCalculate, hv, hfa, hfb]
        | ok fb =>
          by_cases hs : fa * fb > 0 <;> simp [bisectionCalculate, hv, hfa, hfb, hs]
  · intro f p
    cases hv : newtonValidateParams p with
    | error e => simp [newtonCalculate, hv]
    | ok u => cases u; simp [newtonCalculate, hv]
  · intro g p
    cases hv : fixedPointValidateParams p with
    | error e => simp [fixedPointCalculate, hv]
    | ok u => cases u; simp [fixedPointCalculate, hv]
  · intro p
    rcases hvw : linearValidateParams p with ⟨ws, out⟩
    cases out with
    | error e => simp [gaussSeidelCalculate, hvw]
    | ok u => cases u; simp [gaussSeidelCalculate, hvw]
  · intro p
    rcases hvw : linearValidateParams p with ⟨ws, out⟩
    cases out with
    | error e => simp [gaussJacobiCalculate, hvw]
    | ok u => cases u; simp [gaussJacobiCalculate, hvw]
  · intro p
    cases hv : lagrangeValidateParams p with
    | error e => simp [lagrangeCalculate, hv]
    | ok u => cases u; simp [lagrangeCalculate, hv]
  · intro f p
    cases hv : integrationValidateParams p with
    | error e => simp [integrationCalculate, hv]
    | ok u =>
      cases u
      cases hev : (evalValues f (trapPoints p.a ((p.b - p.a) / (p.n.num.toNat : ℚ))
          p.n.num.toNat)).2 with
      | none => simp [integrationCalculate, hv, hev]
      | some e => simp [integrationCalculate, hv, hev, freshState]
  · intro f p
    rcases hvw : diffValidateParams p with ⟨ws, out⟩
    cases out with
    | error e => simp [diffCalculate, hvw]
    | ok u =>
      cases u
      cases hstep : diffStep f p.method p.x p.h with
      | error e => simp [diffCalculate, hvw, hstep, freshState]
      | ok rec0 => simp [diffCalculate, hvw, hstep]

end CalcMN
